import Mathlib

/-
  Verification of the media-scraper pipeline.

  Shallow embedding of the TypeScript sources:
  - src/backend/src/scrapers/scraper.manager.ts  (extraction router)
  - the CheerioScraper (static HTML extractor): URL filter and resolution
  - the Redis cache service and cache key generators
  - the Bull queue worker (processScrapeJob) as an effect-producing function
  - the queue manager's per-job completion tracker as a state machine
  - the POST /api/scrape submission handler
  - the Basic-Auth middleware

  Asynchronous I/O is modelled by passing the outcome of each awaited call
  as an explicit argument (Option / Except values), and database or cache
  writes are modelled as effect lists.
-/

namespace MediaScraper

/-! ## Scraper data types (scrapers/types.ts) -/

/-- Media type, from the type union in scrapers/types.ts. -/
inductive MediaType
  | image
  | video
deriving DecidableEq, Repr

/-- One extracted asset, from interface ScrapedMedia in scrapers/types.ts. -/
structure ScrapedMedia where
  mediaUrl : String
  type : MediaType
  title : Option String
deriving DecidableEq, Repr

/-- Which scraper produced a result, from scrapers/types.ts. -/
inductive ScraperUsed
  | cheerio
  | puppeteer
deriving DecidableEq, Repr

/-- Result of one scrape, from interface ScrapeResult in scrapers/types.ts. -/
structure ScrapeResult where
  url : String
  success : Bool
  media : List ScrapedMedia
  error : Option String
  scraperUsed : ScraperUsed
deriving DecidableEq, Repr

/-! ## Extraction router (scraper.manager.ts, ScraperManager.scrape)

The two awaited scraper calls are passed in as arguments:
the Cheerio scraper never throws (its scrape catches every error and
returns success=false), so its outcome is a plain ScrapeResult; the
Puppeteer call sits inside a try/catch in the router, so its outcome is
an Except value whose error case models the thrown exception. -/

/-- ScraperManager.scrape, scraper.manager.ts lines 25-67: return the
Cheerio result when it succeeded with at least 3 items, otherwise try
Puppeteer and return its result exactly when it succeeded with strictly
more items; on a Puppeteer throw return the Cheerio result. -/
def ScraperManager.scrape (cheerioResult : ScrapeResult)
    (puppeteerOutcome : Except String ScrapeResult) : ScrapeResult :=
  if cheerioResult.success = true ∧ 3 ≤ cheerioResult.media.length then
    cheerioResult
  else
    match puppeteerOutcome with
    | .error _ => cheerioResult
    | .ok puppeteerResult =>
        if puppeteerResult.success = true ∧
            cheerioResult.media.length < puppeteerResult.media.length then
          puppeteerResult
        else
          cheerioResult

/-- Whether the router reaches the Puppeteer fallback (the code after the
early return in ScraperManager.scrape). -/
def ScraperManager.usesRenderer (cheerioResult : ScrapeResult) : Bool :=
  !(cheerioResult.success && decide (3 ≤ cheerioResult.media.length))

/-! ## Theorems for claim C2 -/

/-- C2: the extraction router returns the static extractor's result when it
succeeded with at least 3 media items (without invoking the renderer);
otherwise it invokes the renderer and returns the renderer's result exactly
when the renderer succeeded with strictly more media items than the
extractor; in every other case, including a renderer throw, it returns the
extractor's result. -/
theorem c2_router_choice (c : ScrapeResult) (po : Except String ScrapeResult) :
    ((c.success = true ∧ 3 ≤ c.media.length) →
      ScraperManager.scrape c po = c ∧ ScraperManager.usesRenderer c = false) ∧
    (¬(c.success = true ∧ 3 ≤ c.media.length) →
      ScraperManager.usesRenderer c = true ∧
      (∀ p, po = .ok p →
        ((p.success = true ∧ c.media.length < p.media.length) →
            ScraperManager.scrape c po = p) ∧
        (¬(p.success = true ∧ c.media.length < p.media.length) →
            ScraperManager.scrape c po = c)) ∧
      (∀ e, po = .error e → ScraperManager.scrape c po = c)) := by
  constructor
  · intro h
    constructor
    · simp [ScraperManager.scrape, h]
    · simp [ScraperManager.usesRenderer, h.1, h.2]
  · intro h
    refine ⟨?_, ?_, ?_⟩
    · simp only [ScraperManager.usesRenderer, Bool.not_eq_true']
      by_contra hcon
      rw [Bool.not_eq_false, Bool.and_eq_true] at hcon
      exact h ⟨hcon.1, by simpa using hcon.2⟩
    · intro p hp
      subst hp
      constructor
      · intro hgood
        simp [ScraperManager.scrape, h, hgood]
      · intro hbad
        simp [ScraperManager.scrape, h, hbad]
    · intro e he
      subst he
      simp [ScraperManager.scrape, h]

/-- Witness for C2 at a concrete input: a Cheerio result with 1 item and a
successful Puppeteer result with 2 items; the router falls back and picks
the Puppeteer result. -/
theorem c2_router_choice_witness :
    let c : ScrapeResult :=
      ⟨"https://site.example/page", true,
        [⟨"https://site.example/a.jpg", .image, none⟩], none, .cheerio⟩
    let p : ScrapeResult :=
      ⟨"https://site.example/page", true,
        [⟨"https://site.example/a.jpg", .image, none⟩,
         ⟨"https://site.example/b.jpg", .image, none⟩], none, .puppeteer⟩
    ScraperManager.scrape c (.ok p) = p :=
  ((c2_router_choice _ _).2 (by decide)).2.1 _ rfl |>.1 (by decide)

/-! ## Job lifecycle and progress tracker
(queue.manager.ts setupEventHandlers, scrape.queue.ts processScrapeJob,
job.service.ts updateStatus)

The per-job view of the pipeline is a state machine.  The state holds the
job row's status and completedAt column together with the in-memory
jobCompletionTracker entry for the job and a count of terminal-status
writes.  The events are the worker's initial updateStatus call at the top
of processScrapeJob and the queue's active / completed / failed events as
handled in setupEventHandlers.  JobService.updateStatus passes completedAt
straight into the Prisma update; when the caller omits it the field is
undefined and Prisma leaves the column unchanged, so the workerStart event
only touches status. -/

/-- Job status, the string union used by scrape_jobs.status. -/
inductive JobStatus
  | pending
  | processing
  | completed
  | failed
deriving DecidableEq, Repr

/-- One jobCompletionTracker entry, queue.manager.ts lines 103-106. -/
structure Tracker where
  total : Nat
  completed : Nat
  failed : Nat
deriving DecidableEq, Repr

/-- Per-job pipeline state: the job row (status, completedAt) plus the
tracker entry for this jobId and the number of terminal-status writes
performed so far.  completedAt holds the timestamp passed to
updateStatus, none for the SQL NULL. -/
structure JobState where
  status : JobStatus
  completedAt : Option Nat
  tracker : Option Tracker
  terminalWrites : Nat
deriving DecidableEq, Repr

/-- State of a job right after the POST /api/scrape handler created it:
jobService.create inserts status pending, completedAt NULL, and no
tracker entry exists yet. -/
def initJobState : JobState :=
  { status := .pending, completedAt := none, tracker := none,
    terminalWrites := 0 }

/-- Queue events observed for one job.  workerStart is the unconditional
updateStatus(jobId, processing) at the top of processScrapeJob; the other
three are the Bull events handled in setupEventHandlers.  The Nat on the
terminal events is the value of new Date() at that handler. -/
inductive QueueEvent
  | workerStart
  | active
  | completedEv (t : Nat)
  | failedEv (t : Nat)
deriving DecidableEq, Repr

/-- One event handler execution, queue.manager.ts lines 108-157 and
scrape.queue.ts line 94.  totalUrls is dbJob.urls.length, read when the
active handler initializes the tracker. -/
def step (totalUrls : Nat) (s : JobState) : QueueEvent → JobState
  | .workerStart => { s with status := .processing }
  | .active =>
      match s.tracker with
      | some _ => s
      | none => { s with tracker := some ⟨totalUrls, 0, 0⟩ }
  | .completedEv t =>
      match s.tracker with
      | none => s
      | some tr =>
          let tr' : Tracker := { tr with completed := tr.completed + 1 }
          if tr'.total ≤ tr'.completed + tr'.failed then
            { s with status := .completed, completedAt := some t,
                     tracker := none,
                     terminalWrites := s.terminalWrites + 1 }
          else
            { s with tracker := some tr' }
  | .failedEv t =>
      match s.tracker with
      | none => s
      | some tr =>
          let tr' : Tracker := { tr with failed := tr.failed + 1 }
          if tr'.total ≤ tr'.completed + tr'.failed then
            { s with status :=
                       if tr'.failed = tr'.total then .failed else .completed,
                     completedAt := some t,
                     tracker := none,
                     terminalWrites := s.terminalWrites + 1 }
          else
            { s with tracker := some tr' }

/-- Run a sequence of events from a state. -/
def runEvents (totalUrls : Nat) (s : JobState) (evs : List QueueEvent) :
    JobState :=
  evs.foldl (step totalUrls) s

/-- States reachable from a freshly created job by any event sequence. -/
inductive Reachable (totalUrls : Nat) : JobState → Prop
  | init : Reachable totalUrls initJobState
  | next {s : JobState} (e : QueueEvent) :
      Reachable totalUrls s → Reachable totalUrls (step totalUrls s e)

/-- Helper invariant: in every reachable state, a live tracker entry has
total equal to the job's URL count and completed + failed strictly below
total (the handlers delete the entry in the same step in which the sum
reaches total). -/
theorem tracker_invariant {n : Nat} (hn : 1 ≤ n) {s : JobState}
    (hs : Reachable n s) :
    ∀ tr, s.tracker = some tr →
      tr.total = n ∧ tr.completed + tr.failed < tr.total := by
  induction hs with
  | init => intro tr htr; simp [initJobState] at htr
  | next e hs ih =>
      rename_i s
      intro tr htr
      cases e with
      | workerStart =>
          simp only [step] at htr
          exact ih tr htr
      | active =>
          simp only [step] at htr
          cases hcur : s.tracker with
          | some tr0 =>
              rw [hcur] at htr
              exact ih tr htr
          | none =>
              rw [hcur] at htr
              simp only [JobState.tracker] at htr
              injection htr with h
              subst h
              refine ⟨rfl, ?_⟩
              show (0 : Nat) + 0 < n
              omega
      | completedEv t =>
          simp only [step] at htr
          cases hcur : s.tracker with
          | none => rw [hcur] at htr; exact ih tr htr
          | some tr0 =>
              rw [hcur] at htr
              by_cases hfull : tr0.total ≤ tr0.completed + 1 + tr0.failed
              · simp [hfull] at htr
              · simp only [hfull, if_neg, Nat.not_le] at htr
                have h0 := ih tr0 hcur
                simp only [Nat.not_le] at hfull
                injection htr with h
                subst h
                refine ⟨h0.1, ?_⟩
                show tr0.completed + 1 + tr0.failed < tr0.total
                omega
      | failedEv t =>
          simp only [step] at htr
          cases hcur : s.tracker with
          | none => rw [hcur] at htr; exact ih tr htr
          | some tr0 =>
              rw [hcur] at htr
              by_cases hfull : tr0.total ≤ tr0.completed + (tr0.failed + 1)
              · simp [hfull] at htr
              · simp only [hfull, if_neg, Nat.not_le] at htr
                have h0 := ih tr0 hcur
                simp only [Nat.not_le] at hfull
                injection htr with h
                subst h
                refine ⟨h0.1, ?_⟩
                show tr0.completed + (tr0.failed + 1) < tr0.total
                omega

/-! ## Theorems for claim C1 -/

/-- C1: in every reachable state with a live tracker entry, the terminal
event that makes completed+failed reach the job's total URL count writes
the terminal status (failed exactly when every URL failed, completed
otherwise), sets completed_at to the handler's timestamp, and deletes the
tracker entry. -/
theorem c1_terminal_status (n : Nat) (hn : 1 ≤ n) {s : JobState}
    (hs : Reachable n s) (tr : Tracker) (htr : s.tracker = some tr) (t : Nat) :
    (tr.total ≤ tr.completed + 1 + tr.failed →
      step n s (.completedEv t) =
        { status := .completed, completedAt := some t, tracker := none,
          terminalWrites := s.terminalWrites + 1 } ∧
      tr.failed ≠ tr.total) ∧
    (tr.total ≤ tr.completed + (tr.failed + 1) →
      step n s (.failedEv t) =
        { status := if tr.failed + 1 = tr.total then .failed else .completed,
          completedAt := some t, tracker := none,
          terminalWrites := s.terminalWrites + 1 }) := by
  have hinv := tracker_invariant hn hs tr htr
  constructor
  · intro hfull
    constructor
    · simp only [step, htr]
      rw [if_pos (by show tr.total ≤ tr.completed + 1 + tr.failed; omega)]
    · omega
  · intro hfull
    simp only [step, htr]
    rw [if_pos (by show tr.total ≤ tr.completed + (tr.failed + 1); omega)]

/-- Witness for C1: a job with one URL, tracker freshly initialized by the
active event; the completed event writes status completed with the
timestamp 42 and deletes the tracker. -/
theorem c1_terminal_status_witness :
    step 1 (step 1 initJobState .active) (.completedEv 42) =
      { status := .completed, completedAt := some 42, tracker := none,
        terminalWrites := 1 } ∧
    (0 : Nat) ≠ 1 := by
  have h := c1_terminal_status 1 (by decide) (.next .active .init)
    ⟨1, 0, 0⟩ rfl 42
  have h1 := h.1 (by decide)
  exact ⟨h1.1, h1.2⟩

/-! ## Theorems for claim C4 -/

/-- C4 as stated is false: the terminal-status write is not performed
exactly once per job.  After the tracker entry is deleted by the first
terminal write, a duplicate or late delivery raises active again, the
handler re-creates the tracker from the job row, and the next completed
event performs a second terminal write for the same job. -/
theorem c4_second_terminal_write_counterexample :
    (runEvents 1 initJobState
        [.active, .completedEv 3]).terminalWrites = 1 ∧
    (runEvents 1 initJobState
        [.active, .completedEv 3, .active, .completedEv 7]).terminalWrites
      = 2 := by
  decide

/-- C4 amended: in every reachable state the tracker invariant
completed + failed ≤ total holds, and every terminal-status write
coincides with the deletion of a live tracker entry (so the write happens
exactly once per tracker incarnation; only a re-created tracker entry can
produce a further write). -/
theorem c4_amended_tracker_bound (n : Nat) (hn : 1 ≤ n) {s : JobState}
    (hs : Reachable n s) :
    (∀ tr, s.tracker = some tr → tr.completed + tr.failed ≤ tr.total) ∧
    (∀ e, (step n s e).terminalWrites = s.terminalWrites ∨
       ((step n s e).terminalWrites = s.terminalWrites + 1 ∧
        (step n s e).tracker = none ∧ s.tracker ≠ none)) := by
  constructor
  · intro tr htr
    have := tracker_invariant hn hs tr htr
    omega
  · intro e
    cases e with
    | workerStart => left; rfl
    | active =>
        cases hcur : s.tracker with
        | some tr => left; simp [step, hcur]
        | none => left; simp [step, hcur]
    | completedEv t =>
        cases hcur : s.tracker with
        | none => left; simp [step, hcur]
        | some tr =>
            by_cases hfull : tr.total ≤ tr.completed + 1 + tr.failed
            · right
              refine ⟨by simp [step, hcur, hfull], by simp [step, hcur, hfull],
                by simp [hcur]⟩
            · left
              simp [step, hcur, hfull]
    | failedEv t =>
        cases hcur : s.tracker with
        | none => left; simp [step, hcur]
        | some tr =>
            by_cases hfull : tr.total ≤ tr.completed + (tr.failed + 1)
            · right
              refine ⟨by simp [step, hcur, hfull], by simp [step, hcur, hfull],
                by simp [hcur]⟩
            · left
              simp [step, hcur, hfull]

/-- Witness for the amended C4 at a concrete reachable state (job with one
URL, tracker initialized) and the concrete completed event. -/
theorem c4_amended_tracker_bound_witness :
    ((⟨1, 0, 0⟩ : Tracker).completed + (⟨1, 0, 0⟩ : Tracker).failed ≤
      (⟨1, 0, 0⟩ : Tracker).total) ∧
    ((step 1 (step 1 initJobState .active) (.completedEv 5)).terminalWrites =
        (step 1 initJobState .active).terminalWrites ∨
      ((step 1 (step 1 initJobState .active) (.completedEv 5)).terminalWrites =
          (step 1 initJobState .active).terminalWrites + 1 ∧
       (step 1 (step 1 initJobState .active) (.completedEv 5)).tracker = none ∧
       (step 1 initJobState .active).tracker ≠ none)) := by
  have h := c4_amended_tracker_bound 1 (by decide) (.next .active .init)
  exact ⟨h.1 ⟨1, 0, 0⟩ rfl, h.2 (.completedEv 5)⟩

/-! ## Theorems for claim C3 -/

/-- C3 as stated is false for sequences in which a retried or stalled
queue item is reprocessed after the job was marked terminal: the worker
handler unconditionally writes status processing at its start, and that
update leaves completed_at untouched.  Concretely, for a one-URL job the
sequence workerStart, active, completed, workerStart ends with status
processing re-entered after the terminal state and completed_at still
set. -/
theorem c3_reentry_counterexample :
    (runEvents 1 initJobState
        [.workerStart, .active, .completedEv 5]).status = .completed ∧
    (runEvents 1 initJobState
        [.workerStart, .active, .completedEv 5, .workerStart]).status
      = .processing ∧
    (runEvents 1 initJobState
        [.workerStart, .active, .completedEv 5, .workerStart]).completedAt
      = some 5 := by
  decide

/-- States reachable when no event for the job is delivered after the job
has reached a terminal status (no duplicate, retried or stalled delivery
after the terminal write). -/
inductive GReach (n : Nat) : JobState → Prop
  | init : GReach n initJobState
  | next {s : JobState} (e : QueueEvent) :
      GReach n s → s.status ≠ .completed → s.status ≠ .failed →
      GReach n (step n s e)

/-- Position of a status along the lifecycle
pending, processing, terminal. -/
def statusRank : JobStatus → Nat
  | .pending => 0
  | .processing => 1
  | .completed => 2
  | .failed => 2

/-- C3 amended: provided no queue item is delivered for the job after it
reached a terminal status, completed_at is non-null exactly in the
terminal statuses, and every delivered event moves the status forward
along pending, processing, terminal (in particular there is no re-entry
into processing). -/
theorem c3_amended_lifecycle (n : Nat) {s : JobState} (hs : GReach n s) :
    (s.completedAt ≠ none ↔ (s.status = .completed ∨ s.status = .failed)) ∧
    (∀ e, s.status ≠ .completed → s.status ≠ .failed →
      statusRank s.status ≤ statusRank ((step n s e).status)) := by
  constructor
  · induction hs with
    | init => simp [initJobState]
    | next e hs hnc hnf ih =>
        rename_i s
        have hnone : s.completedAt = none := by
          by_contra hne
          rcases ih.mp hne with h | h
          · exact hnc h
          · exact hnf h
        cases e with
        | workerStart => simp [step, hnone]
        | active =>
            cases hcur : s.tracker with
            | some tr => simpa [step, hcur] using ih
            | none => simpa [step, hcur] using ih
        | completedEv t =>
            cases hcur : s.tracker with
            | none => simpa [step, hcur] using ih
            | some tr =>
                by_cases hfull : tr.total ≤ tr.completed + 1 + tr.failed
                · simp [step, hcur, hfull]
                · simpa [step, hcur, hfull] using ih
        | failedEv t =>
            cases hcur : s.tracker with
            | none => simpa [step, hcur] using ih
            | some tr =>
                by_cases hfull : tr.total ≤ tr.completed + (tr.failed + 1)
                · by_cases hall : tr.failed + 1 = tr.total <;>
                    simp [step, hcur, hfull, hall]
                · simpa [step, hcur, hfull] using ih
  · intro e hnc hnf
    cases e with
    | workerStart =>
        cases hcur : s.status with
        | pending => simp [step, statusRank]
        | processing => simp [step, statusRank]
        | completed => exact absurd hcur hnc
        | failed => exact absurd hcur hnf
    | active =>
        cases hcur : s.tracker with
        | some tr => simp [step, hcur]
        | none => simp [step, hcur]
    | completedEv t =>
        cases hcur : s.tracker with
        | none => simp [step, hcur]
        | some tr =>
            by_cases hfull : tr.total ≤ tr.completed + 1 + tr.failed
            · cases hst : s.status <;> simp [step, hcur, hfull, statusRank]
            · simp [step, hcur, hfull]
    | failedEv t =>
        cases hcur : s.tracker with
        | none => simp [step, hcur]
        | some tr =>
            by_cases hfull : tr.total ≤ tr.completed + (tr.failed + 1)
            · by_cases hall : tr.failed + 1 = tr.total <;>
                · cases hst : s.status <;>
                    simp [step, hcur, hfull, hall, statusRank]
            · simp [step, hcur, hfull]

/-- Witness for the amended C3 at a concrete state reached without
post-terminal deliveries: after workerStart and active, completed_at is
still null and the status is processing, and a further workerStart does
not move the status backwards. -/
theorem c3_amended_lifecycle_witness :
    ((step 1 (step 1 initJobState .workerStart) .active).completedAt ≠ none ↔
      ((step 1 (step 1 initJobState .workerStart) .active).status
          = .completed ∨
       (step 1 (step 1 initJobState .workerStart) .active).status
          = .failed)) ∧
    statusRank (step 1 (step 1 initJobState .workerStart) .active).status ≤
      statusRank
        ((step 1 (step 1 (step 1 initJobState .workerStart) .active)
            .workerStart).status) := by
  have hg : GReach 1 (step 1 (step 1 initJobState .workerStart) .active) :=
    .next .active (.next .workerStart .init (by decide) (by decide))
      (by decide) (by decide)
  have h := c3_amended_lifecycle 1 hg
  exact ⟨h.1, h.2 .workerStart (by decide) (by decide)⟩

/-! ## Job submission (POST /api/scrape handler, scrape.routes)

The handler de-duplicates the submitted urls with a JS Set spread,
creates the job row with the unique urls and status pending, and responds
with total_urls and duplicates_removed.  A JS Set iterates in insertion
order, so the spread keeps the first occurrence of each URL; the fold
below mirrors that construction. -/

/-- The in-request de-duplication: the uniqueUrls binding
of the POST /api/scrape handler. -/
def dedupeUrls (urls : List String) : List String :=
  urls.foldl (fun acc u => if u ∈ acc then acc else acc ++ [u]) []

/-- Reference first-occurrence de-duplication, used to state what the
handler's Set spread computes: keep each URL's first occurrence in order
and drop every later duplicate. -/
def firstOccurrences : List String → List String
  | [] => []
  | u :: rest => u :: (firstOccurrences rest).filter (fun v => v != u)

/-- The response body of a successful POST /api/scrape, together with the
urls column stored on the created job row. -/
structure ScrapeSubmitResponse where
  job_urls : List String
  status : JobStatus
  total_urls : Nat
  duplicates_removed : Nat
deriving DecidableEq, Repr

/-- The POST /api/scrape handler: de-duplicate, create the job with the
unique urls and status pending, respond with the counts. -/
def postApiScrape (urls : List String) : ScrapeSubmitResponse :=
  let uniqueUrls := dedupeUrls urls
  { job_urls := uniqueUrls, status := .pending,
    total_urls := uniqueUrls.length,
    duplicates_removed := urls.length - uniqueUrls.length }

/-- Accumulator form of the Set-spread fold. -/
theorem dedupe_foldl_eq (l : List String) :
    ∀ acc : List String,
      l.foldl (fun acc u => if u ∈ acc then acc else acc ++ [u]) acc
        = acc ++ (firstOccurrences l).filter (fun v => decide (v ∉ acc)) := by
  induction l with
  | nil => intro acc; simp [firstOccurrences]
  | cons a l ih =>
      intro acc
      by_cases ha : a ∈ acc
      · rw [List.foldl_cons, if_pos ha, ih acc]
        have hfil : ∀ v ∈ firstOccurrences l,
            (decide (v ∉ acc) && (v != a)) = decide (v ∉ acc) := by
          intro v _
          by_cases h1 : v = a
          · subst h1; simp [ha]
          · simp [h1]
        simp only [firstOccurrences, List.filter_cons, List.filter_filter]
        rw [List.filter_congr hfil]
        simp [ha]
      · rw [List.foldl_cons, if_neg ha, ih (acc ++ [a])]
        have hfil : ∀ v ∈ firstOccurrences l,
            (decide (v ∉ acc) && (v != a)) = decide (v ∉ acc ++ [a]) := by
          intro v _
          by_cases h1 : v = a
          · subst h1; simp
          · by_cases h2 : v ∈ acc <;> simp [h1, h2]
        simp only [firstOccurrences, List.filter_cons, List.filter_filter]
        rw [List.filter_congr hfil]
        simp [ha]

/-- The handler's Set spread computes exactly the first-occurrence
de-duplication. -/
theorem dedupeUrls_eq_firstOccurrences (urls : List String) :
    dedupeUrls urls = firstOccurrences urls := by
  rw [dedupeUrls, dedupe_foldl_eq urls []]
  simp

/-- firstOccurrences preserves exactly the set of submitted URLs. -/
theorem mem_firstOccurrences (l : List String) (x : String) :
    x ∈ firstOccurrences l ↔ x ∈ l := by
  induction l with
  | nil => simp [firstOccurrences]
  | cons a l ih =>
      simp only [firstOccurrences, List.mem_cons, List.mem_filter,
        bne_iff_ne, ne_eq, ih]
      by_cases h : x = a <;> simp [h]

/-- firstOccurrences has no duplicates. -/
theorem nodup_firstOccurrences (l : List String) :
    (firstOccurrences l).Nodup := by
  induction l with
  | nil => simp [firstOccurrences]
  | cons a l ih =>
      refine List.Nodup.cons ?_ (ih.filter _)
      intro hmem
      rcases List.mem_filter.mp hmem with ⟨_, hne⟩
      simp at hne

/-! ## Theorems for claim C5 -/

/-- C5: for every submitted list of 1..100 URLs, the handler stores the
in-order first-occurrence de-duplication of the list on the new job (a
duplicate-free list with exactly the submitted URLs as members), and
responds with status pending, total_urls equal to the number of distinct
URLs and duplicates_removed equal to the submitted length minus that
count. -/
theorem c5_submission_dedup (urls : List String)
    (_h1 : 1 ≤ urls.length) (_h2 : urls.length ≤ 100) :
    (postApiScrape urls).job_urls = firstOccurrences urls ∧
    (postApiScrape urls).job_urls.Nodup ∧
    (∀ u, u ∈ (postApiScrape urls).job_urls ↔ u ∈ urls) ∧
    (postApiScrape urls).total_urls = (firstOccurrences urls).length ∧
    (postApiScrape urls).duplicates_removed
        = urls.length - (firstOccurrences urls).length ∧
    (postApiScrape urls).status = .pending := by
  have hd := dedupeUrls_eq_firstOccurrences urls
  refine ⟨hd, ?_, ?_, ?_, ?_, rfl⟩
  · show (dedupeUrls urls).Nodup
    rw [hd]; exact nodup_firstOccurrences urls
  · intro u
    show u ∈ dedupeUrls urls ↔ u ∈ urls
    rw [hd]; exact mem_firstOccurrences urls u
  · show (dedupeUrls urls).length = (firstOccurrences urls).length
    rw [hd]
  · show urls.length - (dedupeUrls urls).length
        = urls.length - (firstOccurrences urls).length
    rw [hd]

/-- Witness for C5 at the spec's example submission: urls u, u, v yield
total_urls 2 and duplicates_removed 1. -/
theorem c5_submission_dedup_witness :
    (postApiScrape ["u", "u", "v"]).job_urls
        = firstOccurrences ["u", "u", "v"] ∧
    (postApiScrape ["u", "u", "v"]).total_urls = 2 ∧
    (postApiScrape ["u", "u", "v"]).duplicates_removed = 1 := by
  have h := c5_submission_dedup ["u", "u", "v"] (by decide) (by decide)
  refine ⟨h.1, ?_, ?_⟩
  · rw [h.2.2.2.1]; decide
  · rw [h.2.2.2.2.1]; decide

/-! ## URL handling (the CheerioScraper)

makeAbsoluteUrl and isValidMediaUrl build on the WHATWG URL parser of the
Node url module.  parseUrl models that parser for the URL shapes the
scraper handles: a scheme, an optional //authority with an optional port,
and a path, yielding the protocol, hostname and pathname fields the
filter reads.  Userinfo, IPv6 hosts, percent-encoding normalization and
dot-segment removal are not modelled; no claim depends on them. -/

/-- Split a character list at the first occurrence of sep; none when sep
does not occur. -/
def breakAt (sep : Char) : List Char → Option (List Char × List Char)
  | [] => none
  | c :: rest =>
      if c = sep then some ([], rest)
      else (breakAt sep rest).map (fun p => (c :: p.1, p.2))

/-- Model of String.prototype.startsWith (and of the Lean library
function of the same meaning, re-stated over character lists so that it
evaluates by kernel reduction). -/
def strStartsWith (s pre : String) : Bool :=
  pre.data.isPrefixOf s.data

/-- Model of JS String.prototype.includes: pat occurs as a contiguous
substring of s. -/
def containsSubstr (s pat : String) : Bool :=
  (List.range (s.data.length + 1)).any
    (fun i => pat.data.isPrefixOf (s.data.drop i))

/-- Model of JS String.prototype.toLowerCase on the characters that occur
here. -/
def lowerStr (s : String) : String :=
  String.mk (s.data.map Char.toLower)

/-- The three URL-object fields the scraper reads. -/
structure UrlParts where
  protocol : String
  hostname : String
  pathname : String
deriving DecidableEq, Repr

/-- Characters allowed in a URL scheme after the leading letter. -/
def isSchemeChar (c : Char) : Bool :=
  c.isAlpha || c.isDigit || c = '+' || c = '-' || c = '.'

/-- Model of new URL(s) from the Node url module, restricted to the fields
and shapes described in the section comment; none models the constructor
throwing on input without a valid scheme. -/
def parseUrl (s : String) : Option UrlParts :=
  match breakAt ':' s.data with
  | none => none
  | some (schemeCs, rest) =>
      match schemeCs with
      | [] => none
      | c0 :: _ =>
          if c0.isAlpha && schemeCs.all isSchemeChar then
            let protocol := String.mk (schemeCs.map Char.toLower) ++ ":"
            match rest with
            | '/' :: '/' :: afterSlashes =>
                let notAuthorityEnd := fun (c : Char) =>
                  c != '/' && c != '?' && c != '#'
                let authority := afterSlashes.takeWhile notAuthorityEnd
                let pathRest := afterSlashes.dropWhile notAuthorityEnd
                let hostname := String.mk
                  ((authority.takeWhile (fun c => c != ':')).map Char.toLower)
                if hostname.data.isEmpty then none
                else
                  let pathCs := pathRest.takeWhile
                    (fun c => c != '?' && c != '#')
                  let pathname :=
                    if pathCs.isEmpty then "/" else String.mk pathCs
                  some ⟨protocol, hostname, pathname⟩
            | _ =>
                some ⟨protocol, "",
                  String.mk (rest.takeWhile (fun c => c != '?' && c != '#'))⟩
          else none

/-- The blocked tracking/analytics substrings in
CheerioScraper.isValidMediaUrl. -/
def blockedDomains : List String :=
  ["google-analytics.com", "doubleclick.net", "facebook.com/tr"]

/-- CheerioScraper.isValidMediaUrl: parse the URL (false when the
constructor throws), reject the data: protocol, reject hostnames
containing a blocked domain, reject lower-cased paths containing 1x1 or
pixel, accept everything else. -/
def CheerioScraper.isValidMediaUrl (url : String) : Bool :=
  match parseUrl url with
  | none => false
  | some u =>
      if u.protocol == "data:" then false
      else if blockedDomains.any (fun d => containsSubstr u.hostname d) then
        false
      else
        let pathname := lowerStr u.pathname
        if containsSubstr pathname "1x1" || containsSubstr pathname "pixel"
        then false
        else true

/-- Directory part of a path: everything up to and including the last
slash. -/
def dirname (path : List Char) : List Char :=
  (path.reverse.dropWhile (fun c => c != '/')).reverse

/-- Model of new URL(relativeUrl, baseUrl).href for the resolution cases
the scraper meets: an input carrying its own scheme is returned as is; a
path-absolute or path-relative reference is resolved against the base's
origin and directory.  Dot segments are not normalized.  none models the
constructor throwing. -/
def resolveAgainstBase (relativeUrl baseUrl : String) : Option String :=
  match parseUrl relativeUrl with
  | some _ => some relativeUrl
  | none =>
      match parseUrl baseUrl with
      | none => none
      | some b =>
          if strStartsWith relativeUrl "/" then
            some (b.protocol ++ "//" ++ b.hostname ++ relativeUrl)
          else
            some (b.protocol ++ "//" ++ b.hostname ++
              String.mk (dirname b.pathname.data) ++ relativeUrl)

/-- CheerioScraper.makeAbsoluteUrl: pass http(s) URLs through, prepend the
base protocol to protocol-relative URLs, and otherwise resolve against
the base URL; none models returning null from the catch block. -/
def CheerioScraper.makeAbsoluteUrl (relativeUrl baseUrl : String) :
    Option String :=
  if strStartsWith relativeUrl "http://" || strStartsWith relativeUrl "https://"
  then some relativeUrl
  else if strStartsWith relativeUrl "//" then
    match parseUrl baseUrl with
    | some b => some (b.protocol ++ relativeUrl)
    | none => none
  else resolveAgainstBase relativeUrl baseUrl

/-! ## Theorems for claim C6 -/

/-- C6 as stated is false: the filter only rejects the data: scheme, not
every non-http(s) scheme.  A candidate with an ftp: scheme resolves to
itself and passes the filter even though its scheme is neither http nor
https. -/
theorem c6_scheme_counterexample :
    CheerioScraper.makeAbsoluteUrl "ftp://example.com/a.jpg"
        "https://host.example/page" = some "ftp://example.com/a.jpg" ∧
    CheerioScraper.isValidMediaUrl "ftp://example.com/a.jpg" = true ∧
    (parseUrl "ftp://example.com/a.jpg").map UrlParts.protocol
        = some "ftp:" ∧
    ("ftp:" : String) ≠ "http:" ∧ ("ftp:" : String) ≠ "https:" := by
  refine ⟨by decide, by decide, by decide, by decide, by decide⟩

/-- C6 amended: the filter rejects every resolved URL whose scheme is
data: (other non-http(s) schemes such as ftp: or javascript: are not
rejected by scheme), and rejects the listed tracking hosts and paths
containing 1x1 or pixel. -/
theorem c6_amended_filter_rejections (url : String) (u : UrlParts)
    (hu : parseUrl url = some u) :
    (u.protocol = "data:" → CheerioScraper.isValidMediaUrl url = false) ∧
    (∀ d ∈ blockedDomains, containsSubstr u.hostname d = true →
        CheerioScraper.isValidMediaUrl url = false) ∧
    ((containsSubstr (lowerStr u.pathname) "1x1" = true ∨
      containsSubstr (lowerStr u.pathname) "pixel" = true) →
        CheerioScraper.isValidMediaUrl url = false) := by
  refine ⟨?_, ?_, ?_⟩
  · intro hd
    simp [CheerioScraper.isValidMediaUrl, hu, hd]
  · intro d hd hc
    have hany : blockedDomains.any (fun d => containsSubstr u.hostname d)
        = true :=
      List.any_eq_true.mpr ⟨d, hd, hc⟩
    by_cases hp : u.protocol == "data:" <;>
      simp [CheerioScraper.isValidMediaUrl, hu, hp, hany]
  · intro hpath
    by_cases hp : u.protocol == "data:"
    · simp [CheerioScraper.isValidMediaUrl, hu, hp]
    · by_cases hany : blockedDomains.any (fun d => containsSubstr u.hostname d)
      · simp [CheerioScraper.isValidMediaUrl, hu, hp, hany]
      · rcases hpath with h | h <;>
          simp [CheerioScraper.isValidMediaUrl, hu, hp, hany, h]

/-- Witness for the amended C6 at concrete inputs: a data: URL and a
tracking-pixel path are both rejected. -/
theorem c6_amended_filter_rejections_witness :
    CheerioScraper.isValidMediaUrl "data:image/png;base64,AAAA" = false ∧
    CheerioScraper.isValidMediaUrl "https://ads.example/img/pixel.gif"
      = false := by
  constructor
  · exact (c6_amended_filter_rejections "data:image/png;base64,AAAA"
      ⟨"data:", "", "image/png;base64,AAAA"⟩ (by decide)).1 rfl
  · exact (c6_amended_filter_rejections "https://ads.example/img/pixel.gif"
      ⟨"https:", "ads.example", "/img/pixel.gif"⟩ (by decide)).2.2
      (Or.inr (by decide))

/-! ## Cache keys and TTLs (the cache utility module)

CacheKeys.urlCache computes the string url: followed by the first 100
characters of Buffer.from(url).toString(base64).  Buffer.from on a string
uses UTF-8; charUtf8 models that encoding, and base64Groups models the
RFC 4648 standard alphabet with = padding that Node's base64 encoding
produces. -/

/-- UTF-8 encoding of one code point, as a list of byte values. -/
def charUtf8 (n : Nat) : List Nat :=
  if n < 128 then [n]
  else if n < 2048 then [192 + n / 64, 128 + n % 64]
  else if n < 65536 then [224 + n / 4096, 128 + n / 64 % 64, 128 + n % 64]
  else [240 + n / 262144, 128 + n / 4096 % 64, 128 + n / 64 % 64,
        128 + n % 64]

/-- UTF-8 bytes of a string (what Buffer.from(url) holds). -/
def strBytes (s : String) : List Nat :=
  s.data.flatMap (fun c => charUtf8 c.toNat)

/-- The RFC 4648 standard base64 alphabet. -/
def base64StdTable : List Char :=
  "ABCDEFGHIJKLMNOPQRSTUVWXYZabcdefghijklmnopqrstuvwxyz0123456789+/".data

/-- The RFC 4648 URL-safe base64 alphabet. -/
def base64UrlTable : List Char :=
  "ABCDEFGHIJKLMNOPQRSTUVWXYZabcdefghijklmnopqrstuvwxyz0123456789-_".data

/-- One alphabet digit. -/
def base64Digit (table : List Char) (n : Nat) : Char :=
  table.getD n 'A'

/-- base64 encoding of a byte list over a given alphabet, with or without
= padding. -/
def base64Groups (table : List Char) (pad : Bool) : List Nat → List Char
  | [] => []
  | [b1] =>
      [base64Digit table (b1 / 4), base64Digit table (b1 % 4 * 16)] ++
        (if pad then ['=', '='] else [])
  | [b1, b2] =>
      [base64Digit table (b1 / 4), base64Digit table (b1 % 4 * 16 + b2 / 16),
       base64Digit table (b2 % 16 * 4)] ++ (if pad then ['='] else [])
  | b1 :: b2 :: b3 :: rest =>
      [base64Digit table (b1 / 4), base64Digit table (b1 % 4 * 16 + b2 / 16),
       base64Digit table (b2 % 16 * 4 + b3 / 64), base64Digit table (b3 % 64)]
        ++ base64Groups table pad rest

/-- Buffer.from(s).toString(base64): standard alphabet, = padding. -/
def bufferBase64 (s : String) : String :=
  String.mk (base64Groups base64StdTable true (strBytes s))

/-- Modelled from the spec: the spec writes the cache key as
url:{base64url(url)[0:100]}, naming the URL-safe base64 encoding.  Node's
base64url encoding uses the URL-safe alphabet and omits the = padding.
This definition follows the spec's words and exists only to be compared
with the key the code computes. -/
def specBase64url (s : String) : String :=
  String.mk (base64Groups base64UrlTable false (strBytes s))

/-- Model of String.prototype.slice(0, n) (code units coincide with the
characters for the strings handled here). -/
def strTake (s : String) (n : Nat) : String :=
  String.mk (s.data.take n)

/-- CacheKeys.urlCache: url: followed by the first 100 characters of the
standard base64 encoding of the url. -/
def CacheKeys.urlCache (url : String) : String :=
  "url:" ++ strTake (bufferBase64 url) 100

/-- CacheTTL.urlCache, the TTL in seconds used for url cache writes. -/
def CacheTTL.urlCache : Nat := 3600

/-! ## Cache service (CacheService.get and CacheService.getOrSet)

The Redis client state and the awaited calls are passed explicitly:
available is isAvailable(), readResult the outcome of client.get (error
for a rejected promise, ok none for a Redis null reply), parse the
outcome of JSON.parse on the reply.  get is total: every failure path of
the source returns null, never a thrown error. -/

/-- CacheService.get: null when unavailable; then a try/catch around
client.get and JSON.parse in which every error and every falsy reply
(null or the empty string) yields null. -/
def CacheService.get {α : Type} (available : Bool)
    (readResult : Except String (Option String))
    (parse : String → Except String α) : Option α :=
  if available = false then none
  else
    match readResult with
    | .error _ => none
    | .ok none => none
    | .ok (some value) =>
        if value = "" then none
        else
          match parse value with
          | .error _ => none
          | .ok a => some a

/-- A best-effort cache write issued without awaiting its outcome (the
fire-and-forget set in getOrSet, whose rejection is swallowed). -/
inductive CacheOp
  | setAttempt (key : String) (ttlSeconds : Nat)
deriving DecidableEq, Repr

/-- CacheService.getOrSet: read through get; on a hit return the cached
value, otherwise call the fetch function (its result is the fetched
argument), issue the fire-and-forget set, and return the fetched value
unchanged. -/
def CacheService.getOrSet {α : Type} (available : Bool)
    (readResult : Except String (Option String))
    (parse : String → Except String α)
    (key : String) (fetched : α) (ttlSeconds : Nat) : α × List CacheOp :=
  match CacheService.get available readResult parse with
  | some v => (v, [])
  | none => (fetched, [.setAttempt key ttlSeconds])

/-! ## The queue worker (processScrapeJob in the scrape queue module)

The handler is modelled as a pure function of the awaited call outcomes:
the cached value read for the url key and the router result.  Its value
is the ordered list of externally visible effects it performed together
with its outcome; the error case models the handler throwing (which
marks the queue item failed).  The memory checks and GC hints touch no
modelled state and are omitted. -/

/-- Database and cache writes the worker can perform, in source order. -/
inductive WorkerEffect
  | updateStatus (jobId : Nat) (status : JobStatus)
  | progress (pct : Nat)
  | mediaCreateMany (jobId : Nat) (sourceUrl : String)
      (media : List ScrapedMedia)
  | cacheSet (key : String) (value : List ScrapedMedia) (ttlSeconds : Nat)
  | invalidateMediaCaches
deriving DecidableEq, Repr

/-- The scrape path of processScrapeJob, reached when the cache read
returned null or an empty list: throw when the router reported failure;
otherwise persist, cache and invalidate only when media is non-empty. -/
def processScrapeJobScrape (jobId : Nat) (url : String)
    (result : ScrapeResult) : List WorkerEffect × Except String Unit :=
  let pre : List WorkerEffect :=
    [.updateStatus jobId .processing, .progress 25, .progress 75]
  if result.success = false then
    (pre, .error (result.error.getD "Scraping failed"))
  else
    match result.media with
    | [] => (pre ++ [.progress 100], .ok ())
    | m :: ms =>
        (pre ++ [.mediaCreateMany jobId url (m :: ms),
                 .cacheSet (CacheKeys.urlCache url) (m :: ms)
                   CacheTTL.urlCache,
                 .invalidateMediaCaches, .progress 100], .ok ())

/-- processScrapeJob: set the job processing, then either replay a
non-empty cached media list or run the scrape path. -/
def processScrapeJob (jobId : Nat) (url : String)
    (cachedResult : Option (List ScrapedMedia)) (result : ScrapeResult) :
    List WorkerEffect × Except String Unit :=
  match cachedResult with
  | some (m :: ms) =>
      ([.updateStatus jobId .processing,
        .mediaCreateMany jobId url (m :: ms), .progress 100], .ok ())
  | some [] => processScrapeJobScrape jobId url result
  | none => processScrapeJobScrape jobId url result

/-! ## Theorems for claim C7 -/

/-- C7 as stated is false: CacheKeys.urlCache base64-encodes the url with
the standard alphabet (with + / and = padding), not base64url.  For a url
whose bytes produce the digit 63 the two encodings differ inside the
first 100 characters. -/
theorem c7_base64url_counterexample :
    CacheKeys.urlCache "https://abc.co/???"
        ≠ "url:" ++ strTake (specBase64url "https://abc.co/???") 100 ∧
    CacheKeys.urlCache "https://abc.co/???" = "url:aHR0cHM6Ly9hYmMuY28vPz8/"
      := by
  refine ⟨by decide, by decide⟩

/-- C7 amended: the cache key is url: followed by the first 100
characters of the standard base64 encoding of the url, and a successful
extraction with non-empty media is written under exactly that key with a
TTL of 3600 seconds. -/
theorem c7_amended_cache_key (u : String) (jobId : Nat)
    (result : ScrapeResult) (hsucc : result.success = true)
    (hmedia : result.media ≠ []) :
    CacheKeys.urlCache u = "url:" ++ strTake (bufferBase64 u) 100 ∧
    WorkerEffect.cacheSet (CacheKeys.urlCache u) result.media
        CacheTTL.urlCache ∈ (processScrapeJob jobId u none result).1 ∧
    CacheTTL.urlCache = 3600 := by
  refine ⟨rfl, ?_, rfl⟩
  cases hm : result.media with
  | nil => exact absurd hm hmedia
  | cons m ms =>
      simp [processScrapeJob, processScrapeJobScrape, hsucc, hm]

/-- Witness for the amended C7 at a concrete url and a one-item result. -/
theorem c7_amended_cache_key_witness :
    CacheKeys.urlCache "https://abc.co/???"
        = "url:" ++ strTake (bufferBase64 "https://abc.co/???") 100 ∧
    WorkerEffect.cacheSet (CacheKeys.urlCache "https://abc.co/???")
        [⟨"https://abc.co/a.jpg", .image, none⟩] CacheTTL.urlCache
      ∈ (processScrapeJob 1 "https://abc.co/???" none
          ⟨"https://abc.co/???", true,
            [⟨"https://abc.co/a.jpg", .image, none⟩], none, .cheerio⟩).1 ∧
    CacheTTL.urlCache = 3600 :=
  c7_amended_cache_key "https://abc.co/???" 1
    ⟨"https://abc.co/???", true, [⟨"https://abc.co/a.jpg", .image, none⟩],
      none, .cheerio⟩ rfl (by simp)

/-! ## Theorems for claim C8 -/

/-- C8: a cache read is total and returns null whenever the store is
unavailable or the underlying read rejected; and getOrSet, on a null
read, returns the fetch function's value unchanged and issues the
fire-and-forget store of that value. -/
theorem c8_cache_read_total {α : Type} (available : Bool)
    (readResult : Except String (Option String))
    (parse : String → Except String α) (key : String) (fetched : α)
    (ttlSeconds : Nat) :
    (available = false →
      CacheService.get available readResult parse = none) ∧
    (∀ msg, readResult = .error msg →
      CacheService.get available readResult parse = none) ∧
    (CacheService.get available readResult parse = none →
      CacheService.getOrSet available readResult parse key fetched
          ttlSeconds
        = (fetched, [.setAttempt key ttlSeconds])) := by
  refine ⟨?_, ?_, ?_⟩
  · intro h
    simp [CacheService.get, h]
  · intro msg h
    subst h
    simp [CacheService.get]
  · intro h
    simp [CacheService.getOrSet, h]

/-- Witness for C8: with the client disconnected and the read rejected,
get returns null and getOrSet returns the freshly fetched value while
attempting the store. -/
theorem c8_cache_read_total_witness :
    (CacheService.get false (.error "connection refused")
        (fun _ => (.error "bad json" : Except String Nat)) = none) ∧
    (CacheService.getOrSet false (.error "connection refused")
        (fun _ => (.error "bad json" : Except String Nat)) "stats:media" 7 30
      = (7, [.setAttempt "stats:media" 30])) := by
  have h := c8_cache_read_total false (.error "connection refused")
    (fun _ => (.error "bad json" : Except String Nat)) "stats:media" 7 30
  exact ⟨h.1 rfl, h.2.2 (h.1 rfl)⟩

/-! ## Theorems for claim C9 -/

/-- C9: when the router is consulted (no usable cached list) and returns
success with an empty media list, the worker completes the item
successfully and performs no media insert, no url cache write and no
cache invalidation. -/
theorem c9_empty_success_frame (jobId : Nat) (url : String)
    (cachedResult : Option (List ScrapedMedia)) (result : ScrapeResult)
    (hcache : cachedResult = none ∨ cachedResult = some [])
    (hsucc : result.success = true) (hempty : result.media = []) :
    (processScrapeJob jobId url cachedResult result).2 = .ok () ∧
    ∀ e ∈ (processScrapeJob jobId url cachedResult result).1,
      (∀ j su m, e ≠ .mediaCreateMany j su m) ∧
      (∀ k v t, e ≠ .cacheSet k v t) ∧
      e ≠ .invalidateMediaCaches := by
  have hbranch : processScrapeJob jobId url cachedResult result
      = processScrapeJobScrape jobId url result := by
    rcases hcache with h | h <;> subst h <;> rfl
  rw [hbranch]
  constructor
  · simp [processScrapeJobScrape, hsucc, hempty]
  · intro e he
    simp only [processScrapeJobScrape, hsucc, hempty] at he
    simp only [Bool.true_eq_false, if_false, List.append_assoc,
      List.cons_append, List.nil_append, List.mem_cons,
      List.not_mem_nil, or_false] at he
    rcases he with h | h | h | h <;> subst h <;>
      refine ⟨fun j su m => by simp, fun k v t => by simp, by simp⟩

/-- Witness for C9: a cache miss and a successful zero-media result
complete the item with only the status update and progress effects. -/
theorem c9_empty_success_frame_witness :
    (processScrapeJob 1 "https://empty.example/page" none
        ⟨"https://empty.example/page", true, [], none, .cheerio⟩).2
      = .ok () ∧
    WorkerEffect.invalidateMediaCaches ∉
      (processScrapeJob 1 "https://empty.example/page" none
        ⟨"https://empty.example/page", true, [], none, .cheerio⟩).1 := by
  have h := c9_empty_success_frame 1 "https://empty.example/page" none
    ⟨"https://empty.example/page", true, [], none, .cheerio⟩
    (Or.inl rfl) rfl rfl
  exact ⟨h.1, fun hmem => (h.2 _ hmem).2.2 rfl⟩

/-! ## Basic authentication (the basicAuth middleware and the user
service)

The middleware decodes the base64 payload of the Authorization header and
splits the decoded string on every colon; the array destructuring takes
the first two segments as username and password.  The model starts from
the decoded credentials string.  bcrypt.compare(password, hash) succeeds
exactly when password equals the plaintext whose adaptive hash is stored,
so the modelled user row carries that plaintext. -/

/-- JS String.prototype.split with a one-character separator, over the
character list: there is always at least one segment and no segment
contains the separator. -/
def splitChar (sep : Char) : List Char → List (List Char)
  | [] => [[]]
  | c :: rest =>
      if c = sep then [] :: splitChar sep rest
      else
        match splitChar sep rest with
        | [] => [[c]]
        | p :: ps => (c :: p) :: ps

/-- splitChar never returns an empty segment list. -/
theorem splitChar_ne_nil (sep : Char) (l : List Char) :
    splitChar sep l ≠ [] := by
  cases l with
  | nil => simp [splitChar]
  | cons c rest =>
      by_cases h : c = sep
      · simp [splitChar, h]
      · simp only [splitChar, h, if_false]
        cases splitChar sep rest <;> simp


/-- No segment produced by splitChar contains the separator. -/
theorem splitChar_not_mem (sep : Char) (l : List Char) :
    ∀ p ∈ splitChar sep l, sep ∉ p := by
  induction l with
  | nil =>
      intro p hp
      simp [splitChar] at hp
      simp [hp]
  | cons c rest ih =>
      intro p hp
      by_cases h : c = sep
      · simp only [splitChar, h, if_true, List.mem_cons] at hp
        rcases hp with h0 | h0
        · simp [h0]
        · exact ih p h0
      · simp only [splitChar, h, if_false] at hp
        cases hrest : splitChar sep rest with
        | nil => exact absurd hrest (splitChar_ne_nil sep rest)
        | cons q qs =>
            rw [hrest] at hp
            rcases List.mem_cons.mp hp with h0 | h0
            · subst h0
              intro hmem
              rcases List.mem_cons.mp hmem with h1 | h1
              · exact h h1.symm
              · exact ih q (hrest ▸ List.mem_cons_self q qs) h1
            · exact ih p (hrest ▸ List.mem_cons_of_mem q h0)

/-- One row of the users table: id, unique username, and the plaintext
whose adaptive hash the password_hash column stores. -/
structure StoredUser where
  id : Nat
  username : String
  password : String
deriving DecidableEq, Repr

/-- UserService.findByUsername: lookup on the unique username column,
modelled over the user table as a list. -/
def findByUsername (users : List StoredUser) (username : String) :
    Option StoredUser :=
  users.find? (fun u => u.username == username)

/-- UserService.verifyPassword: find the user, then bcrypt-compare the
supplied password against the stored hash; false when the user is
missing. -/
def verifyPassword (users : List StoredUser) (username password : String) :
    Bool :=
  match findByUsername users username with
  | none => false
  | some u => password == u.password

/-- UserService.authenticate: null unless verifyPassword succeeds, then
the user row. -/
def authenticate (users : List StoredUser) (username password : String) :
    Option StoredUser :=
  if verifyPassword users username password then
    findByUsername users username
  else none

/-- Outcome of the basicAuth middleware for a request that carried a
Basic Authorization header. -/
inductive AuthResult
  | unauthorized (message : String)
  | ok (userId : Nat) (username : String)
deriving DecidableEq, Repr

/-- The basicAuth middleware from the point where the header payload has
been base64-decoded: split the decoded credentials on every colon, take
the first two segments, reject empty or missing segments, then
authenticate; the ok case attaches the user to the request and calls
next. -/
def basicAuthDecoded (credentials : String) (users : List StoredUser) :
    AuthResult :=
  let parts := splitChar ':' credentials.data
  match parts[0]?, parts[1]? with
  | some uname, some pword =>
      if uname.isEmpty || pword.isEmpty then
        .unauthorized "Invalid credentials format"
      else
        match authenticate users (String.mk uname) (String.mk pword) with
        | none => .unauthorized "Invalid username or password"
        | some u => .ok u.id u.username
  | _, _ => .unauthorized "Invalid credentials format"

/-! ## Theorems for claim C10 -/

/-- C10: the middleware splits the decoded credentials on every colon and
takes only the first two segments, so the compared password never
contains a colon; for a user whose stored password contains a colon,
authentication therefore fails with 401 for every possible credentials
string. -/
theorem c10_colon_password_always_401 (u : StoredUser) (c : String)
    (hcolon : ':' ∈ u.password.data) :
    (∀ p, (splitChar ':' c.data)[1]? = some p → ':' ∉ p) ∧
    ∃ msg, basicAuthDecoded c [u] = .unauthorized msg := by
  constructor
  · intro p hp
    exact splitChar_not_mem ':' c.data p (List.getElem?_mem hp)
  · simp only [basicAuthDecoded]
    cases h0 : (splitChar ':' c.data)[0]? with
    | none => exact ⟨_, rfl⟩
    | some uname =>
        cases h1 : (splitChar ':' c.data)[1]? with
        | none => exact ⟨_, rfl⟩
        | some pword =>
            by_cases hemp : (uname.isEmpty || pword.isEmpty) = true
            · exact ⟨"Invalid credentials format", by simp [hemp]⟩
            · have hauth : authenticate [u] (String.mk uname)
                  (String.mk pword) = none := by
                have hne : ¬ String.mk pword = u.password := by
                  intro heq
                  have hdata : pword = u.password.data :=
                    congrArg String.data heq
                  exact splitChar_not_mem ':' c.data pword
                    (List.getElem?_mem h1) (hdata ▸ hcolon)
                unfold authenticate verifyPassword findByUsername
                cases hfind : List.find?
                    (fun v => v.username == String.mk uname) [u] with
                | none => simp [hfind]
                | some v =>
                    have hv : v = u := by
                      have := List.mem_of_find?_eq_some hfind
                      simpa using this
                    subst hv
                    simp [hfind, hne]
              exact ⟨"Invalid username or password",
                by simp [hemp, hauth]⟩

/-- Witness for C10: stored password pa:ss (which contains a colon) and
the decoded credentials admin:pa:ss; the compared password segment is pa
and the middleware answers 401. -/
theorem c10_colon_password_always_401_witness :
    basicAuthDecoded "admin:pa:ss" [⟨1, "admin", "pa:ss"⟩]
      = .unauthorized "Invalid username or password" ∧
    ∃ msg, basicAuthDecoded "admin:pa:ss" [⟨1, "admin", "pa:ss"⟩]
      = .unauthorized msg := by
  refine ⟨by decide, ?_⟩
  exact (c10_colon_password_always_401 ⟨1, "admin", "pa:ss"⟩ "admin:pa:ss"
    (by decide)).2

end MediaScraper
